import Mathlib

/-!
Verification of the encrypted-roster store of the Mergington High School
activities API (src/app.py): the in-memory `activities` mapping together with
`encrypt_email` / `decrypt_email`, the read handler `get_activities`, and the
two mutating handlers `signup_for_activity` and `unregister_from_activity`.

The cipher itself (`cryptography.fernet.Fernet`) is an external library, not
part of the repository; it is modelled from the specification of the Cipher
Provider. All roster logic is translated directly from src/app.py.
-/

/-- Modelled from the spec: the Cipher Provider (`cryptography.fernet.Fernet`),
which is external to the repository. Per the spec, `seal` is an authenticated
symmetric cipher that is randomized per call ("If the underlying cipher is
non-deterministic (the common case for authenticated encryption), two seals of
the same plaintext under the same key produce different tokens"), and
`open(seal(x)) == x` for every plaintext `x`. A token is modelled as the pair
of its plaintext and the per-call randomness (the random IV drawn at each
encryption call); two calls of `seal` draw distinct randomness, so they yield
distinct tokens even on the same plaintext. -/
structure Token where
  plain : String
  nonce : Nat
  deriving DecidableEq, Repr

/-- Modelled from the spec: `seal(plaintext) -> token`, i.e. `encrypt_email` of
src/app.py, which calls `fernet.encrypt`. The second argument is the fresh
randomness (IV) the cipher draws for this call; the program state below
supplies a fresh value at every call site, mirroring `os.urandom`. -/
def encrypt_email (email : String) (nonce : Nat) : Token :=
  ⟨email, nonce⟩

/-- Modelled from the spec: `open(token) -> plaintext`, i.e. `decrypt_email` of
src/app.py, which calls `fernet.decrypt`. On every token produced by
`encrypt_email` it recovers the plaintext. -/
def decrypt_email (t : Token) : String :=
  t.plain

/-- One value of the in-memory activity database: the record stored under an
activity name in `activities` (src/app.py, the dict literal), with the
participant emails stored encrypted. -/
structure Activity where
  description : String
  schedule : String
  max_participants : Nat
  participants : List Token
  deriving DecidableEq, Repr

/-- An activity record as returned by `get_activities`: identical fields, but
the participants are decrypted plaintext emails. -/
structure DecryptedActivity where
  description : String
  schedule : String
  max_participants : Nat
  participants : List String
  deriving DecidableEq, Repr

/-- A raised `HTTPException` of FastAPI, carrying `status_code` and `detail`,
exactly as constructed in src/app.py. -/
structure HTTPError where
  status_code : Nat
  detail : String
  deriving DecidableEq, Repr

/-- The full program state: the `activities` dict of src/app.py (a Python dict
preserves insertion order, hence an association list), plus the randomness
supply of the cipher: `nextNonce` is the next fresh IV `fernet.encrypt` will
draw; each encryption call consumes it. -/
structure AppState where
  activities : List (String × Activity)
  nextNonce : Nat
  deriving DecidableEq, Repr

/-- One entry of the seed data from which `activities` is built at module load
(src/app.py, the dict literal), with the participant emails still plaintext:
they are encrypted at construction. -/
structure SeedEntry where
  name : String
  description : String
  schedule : String
  max_participants : Nat
  emails : List String
  deriving DecidableEq, Repr

/-- The nine seeded activities of src/app.py, in source order, each with its
two pre-enrolled participant emails. -/
def seedEntries : List SeedEntry :=
  [ ⟨"Chess Club",
     "Learn strategies and compete in chess tournaments",
     "Fridays, 3:30 PM - 5:00 PM", 12,
     ["michael@mergington.edu", "daniel@mergington.edu"]⟩,
    ⟨"Programming Class",
     "Learn programming fundamentals and build software projects",
     "Tuesdays and Thursdays, 3:30 PM - 4:30 PM", 20,
     ["emma@mergington.edu", "sophia@mergington.edu"]⟩,
    ⟨"Gym Class",
     "Physical education and sports activities",
     "Mondays, Wednesdays, Fridays, 2:00 PM - 3:00 PM", 30,
     ["john@mergington.edu", "olivia@mergington.edu"]⟩,
    ⟨"Soccer Team",
     "Join the school soccer team and compete in matches",
     "Tuesdays and Thursdays, 4:00 PM - 5:30 PM", 22,
     ["liam@mergington.edu", "noah@mergington.edu"]⟩,
    ⟨"Basketball Team",
     "Practice and play basketball with the school team",
     "Wednesdays and Fridays, 3:30 PM - 5:00 PM", 15,
     ["ava@mergington.edu", "mia@mergington.edu"]⟩,
    ⟨"Art Club",
     "Explore your creativity through painting and drawing",
     "Thursdays, 3:30 PM - 5:00 PM", 15,
     ["amelia@mergington.edu", "harper@mergington.edu"]⟩,
    ⟨"Drama Club",
     "Act, direct, and produce plays and performances",
     "Mondays and Wednesdays, 4:00 PM - 5:30 PM", 20,
     ["ella@mergington.edu", "scarlett@mergington.edu"]⟩,
    ⟨"Math Club",
     "Solve challenging problems and participate in math competitions",
     "Tuesdays, 3:30 PM - 4:30 PM", 10,
     ["james@mergington.edu", "benjamin@mergington.edu"]⟩,
    ⟨"Debate Team",
     "Develop public speaking and argumentation skills",
     "Fridays, 4:00 PM - 5:30 PM", 12,
     ["charlotte@mergington.edu", "henry@mergington.edu"]⟩ ]

/-- Seal a list of plaintext emails in order, threading the randomness supply:
each `encrypt_email` call consumes one fresh nonce. Models the successive
`encrypt_email(...)` calls inside one participants list of the dict literal. -/
def sealList (emails : List String) (n : Nat) : List Token × Nat :=
  match emails with
  | [] => ([], n)
  | e :: rest =>
    let t := encrypt_email e n
    let (ts, nFin) := sealList rest (n + 1)
    (t :: ts, nFin)

/-- Build the seeded `activities` mapping, threading the randomness supply
through the `encrypt_email` calls of the dict literal in source order. -/
def sealActivities (entries : List SeedEntry) (n : Nat) :
    List (String × Activity) × Nat :=
  match entries with
  | [] => ([], n)
  | a :: rest =>
    let (ts, n₁) := sealList a.emails n
    let (r, n₂) := sealActivities rest n₁
    ((a.name, ⟨a.description, a.schedule, a.max_participants, ts⟩) :: r, n₂)

/-- The program state right after module load of src/app.py: the seeded
`activities` dict, with the first unused randomness following the eighteen
encryption calls of the seed. -/
def initState : AppState :=
  let (r, n) := sealActivities seedEntries 0
  ⟨r, n⟩

/-- Replace the record stored under `name` in the roster, leaving every other
entry untouched: the in-place mutation of `activity["participants"]` seen from
the enclosing dict. -/
def updateRoster : List (String × Activity) → String → Activity →
    List (String × Activity)
  | [], _, _ => []
  | p :: rest, name, a =>
    (if p.1 = name then (p.1, a) else p) :: updateRoster rest name a

/-- Remove the first occurrence of a token from a list: Python
`list.remove` as used on `activity["participants"]` (its guard ensures the
element is present there). -/
def removeFirst (t : Token) : List Token → List Token
  | [] => []
  | x :: xs => if x = t then xs else x :: removeFirst t xs

/-- Handler `GET /activities` (`get_activities` of src/app.py): build a fresh
mapping whose records copy the stored ones with participants decrypted. The
stored state is not written to (the handler copies each record). -/
def get_activities (s : AppState) :
    List (String × DecryptedActivity) × AppState :=
  (s.activities.map (fun p =>
    (p.1, ⟨p.2.description, p.2.schedule, p.2.max_participants,
           p.2.participants.map decrypt_email⟩)), s)

/-- Handler `POST /activities/.../signup` (`signup_for_activity` of
src/app.py): 404 if the activity name is absent; otherwise encrypt the email
(consuming fresh randomness), 400 if the resulting token is already in the
participant list, else append it and report success. -/
def signup_for_activity (activity_name email : String) (s : AppState) :
    Except HTTPError String × AppState :=
  match s.activities.lookup activity_name with
  | none => (Except.error ⟨404, "Activity not found"⟩, s)
  | some activity =>
    let encrypted_email := encrypt_email email s.nextNonce
    if encrypted_email ∈ activity.participants then
      (Except.error ⟨400, "Student is already signed up"⟩,
       { s with nextNonce := s.nextNonce + 1 })
    else
      (Except.ok ("Signed up " ++ email ++ " for " ++ activity_name),
       ⟨updateRoster s.activities activity_name
          { activity with
            participants := activity.participants ++ [encrypted_email] },
        s.nextNonce + 1⟩)

/-- Handler `DELETE /activities/.../unregister` (`unregister_from_activity` of
src/app.py): 404 if the activity name is absent; otherwise encrypt the email
(consuming fresh randomness), 400 if the resulting token is not in the
participant list, else remove its first occurrence and report success. -/
def unregister_from_activity (activity_name email : String) (s : AppState) :
    Except HTTPError String × AppState :=
  match s.activities.lookup activity_name with
  | none => (Except.error ⟨404, "Activity not found"⟩, s)
  | some activity =>
    let encrypted_email := encrypt_email email s.nextNonce
    if encrypted_email ∈ activity.participants then
      (Except.ok ("Unregistered " ++ email ++ " from " ++ activity_name),
       ⟨updateRoster s.activities activity_name
          { activity with
            participants := removeFirst encrypted_email activity.participants },
        s.nextNonce + 1⟩)
    else
      (Except.error ⟨400, "Student is not signed up for this activity"⟩,
       { s with nextNonce := s.nextNonce + 1 })

/-- Every token stored in the roster was produced by an earlier encryption
call, so its randomness is strictly below the next fresh value. This holds at
module load and is preserved by both mutating handlers; it captures that the
cipher never re-draws an already used IV. -/
def goodState (s : AppState) : Prop :=
  ∀ p ∈ s.activities, ∀ t ∈ p.2.participants, t.nonce < s.nextNonce

/-- Whether a handler call returned success rather than a raised error. -/
def isOkB : Except HTTPError String → Bool
  | Except.ok _ => true
  | Except.error _ => false

/-- All calls of a batch returned success. -/
def allOk (l : List (Except HTTPError String)) : Bool :=
  l.all isOkB

/-- Run `signup_for_activity` once per email, in order, threading the state:
a sequence of signup requests against one activity. -/
def enrollAll (name : String) (emails : List String) (s : AppState) :
    List (Except HTTPError String) × AppState :=
  match emails with
  | [] => ([], s)
  | e :: rest =>
    let (r, s₁) := signup_for_activity name e s
    let (rs, s₂) := enrollAll name rest s₁
    (r :: rs, s₂)

/-- A concrete batch of thirteen pairwise distinct student emails. -/
def thirteenEmails : List String :=
  ["s01@mergington.edu", "s02@mergington.edu", "s03@mergington.edu",
   "s04@mergington.edu", "s05@mergington.edu", "s06@mergington.edu",
   "s07@mergington.edu", "s08@mergington.edu", "s09@mergington.edu",
   "s10@mergington.edu", "s11@mergington.edu", "s12@mergington.edu",
   "s13@mergington.edu"]

/-- The frame condition of a successful mutation on activity `n`: the key
sequence of the roster is unchanged, every other key still looks up to its old
record, and the record under `n` keeps its description, schedule and capacity
(only its participant list may change). -/
def FramePreserved (s sNew : AppState) (n : String) : Prop :=
  sNew.activities.map Prod.fst = s.activities.map Prod.fst ∧
  (∀ m, m ≠ n → sNew.activities.lookup m = s.activities.lookup m) ∧
  (∀ b bNew, s.activities.lookup n = some b →
    sNew.activities.lookup n = some bNew →
    bNew.description = b.description ∧ bNew.schedule = b.schedule ∧
    bNew.max_participants = b.max_participants)

/-- A one-activity state in which an unregister call can succeed: the stored
token was sealed with the randomness value the next encryption call happens to
draw again. Such a state is not reachable from the seed, which is exactly why
a crafted state is needed to exercise the successful withdrawal branch. -/
def shrunkState : AppState :=
  ⟨[("Chess Club",
     ⟨"Learn strategies and compete in chess tournaments",
      "Fridays, 3:30 PM - 5:00 PM", 12, [⟨"gone@student.edu", 0⟩]⟩)], 0⟩

/-! ## Helper lemmas about lookup, update and removal -/

/-- A successful lookup comes from an entry of the roster list. -/
theorem mem_of_lookup {l : List (String × Activity)} {n : String} {b : Activity}
    (h : l.lookup n = some b) : (n, b) ∈ l := by
  induction l with
  | nil => simp at h
  | cons p rest ih =>
    obtain ⟨k, v⟩ := p
    rw [List.lookup_cons] at h
    cases hk : n == k with
    | true =>
      rw [hk] at h
      simp only [] at h
      obtain rfl : v = b := Option.some.inj h
      obtain rfl : n = k := eq_of_beq hk
      exact List.mem_cons_self _ _
    | false =>
      rw [hk] at h
      simp only [] at h
      exact List.mem_cons_of_mem _ (ih h)

/-- Updating one key leaves the key sequence of the roster unchanged. -/
theorem updateRoster_map_fst (r : List (String × Activity)) (n : String)
    (a : Activity) : (updateRoster r n a).map Prod.fst = r.map Prod.fst := by
  induction r with
  | nil => rfl
  | cons p rest ih =>
    rw [updateRoster, List.map_cons, List.map_cons, ih]
    by_cases h : p.1 = n
    · rw [if_pos h]
    · rw [if_neg h]

/-- Updating one key does not change the lookup of any other key. -/
theorem updateRoster_lookup_ne (r : List (String × Activity)) (n m : String)
    (a : Activity) (h : m ≠ n) :
    (updateRoster r n a).lookup m = r.lookup m := by
  induction r with
  | nil => rfl
  | cons p rest ih =>
    obtain ⟨k, v⟩ := p
    rw [updateRoster]
    by_cases hk : k = n
    · rw [if_pos hk]
      rw [List.lookup_cons, List.lookup_cons]
      have hmk : (m == k) = false := by
        apply beq_eq_false_iff_ne.mpr
        intro hmk
        exact h (hmk.trans hk)
      rw [hmk]
      exact ih
    · rw [if_neg hk]
      rw [List.lookup_cons, List.lookup_cons]
      cases hmk : m == k with
      | true => rfl
      | false => exact ih

/-- Updating a key that is present makes its lookup return the new record. -/
theorem updateRoster_lookup_self (r : List (String × Activity)) (n : String)
    (a b : Activity) (h : r.lookup n = some b) :
    (updateRoster r n a).lookup n = some a := by
  induction r with
  | nil => simp at h
  | cons p rest ih =>
    obtain ⟨k, v⟩ := p
    rw [List.lookup_cons] at h
    rw [updateRoster]
    cases hk : n == k with
    | true =>
      obtain rfl : n = k := eq_of_beq hk
      rw [if_pos rfl, List.lookup_cons]
      rw [BEq.refl]
    | false =>
      rw [hk] at h
      simp only [] at h
      have hkn : k ≠ n := fun hkn => by
        rw [beq_eq_false_iff_ne] at hk
        exact hk hkn.symm
      rw [if_neg hkn, List.lookup_cons, hk]
      exact ih h

/-- Every entry of an updated roster is either the new record or an entry of
the old roster. -/
theorem updateRoster_mem {r : List (String × Activity)} {n : String}
    {a : Activity} {p : String × Activity} (hp : p ∈ updateRoster r n a) :
    p.2 = a ∨ p ∈ r := by
  induction r with
  | nil => simp [updateRoster] at hp
  | cons q rest ih =>
    rw [updateRoster] at hp
    rcases List.mem_cons.mp hp with h | h
    · by_cases hq : q.1 = n
      · rw [if_pos hq] at h
        left
        rw [h]
      · rw [if_neg hq] at h
        right
        exact h ▸ List.mem_cons_self _ _
    · rcases ih h with h2 | h2
      · exact Or.inl h2
      · exact Or.inr (List.mem_cons_of_mem _ h2)

/-- Removal of the first occurrence keeps us inside the original list. -/
theorem removeFirst_subset {t x : Token} {l : List Token}
    (h : x ∈ removeFirst t l) : x ∈ l := by
  induction l with
  | nil => simp [removeFirst] at h
  | cons y ys ih =>
    rw [removeFirst] at h
    by_cases hy : y = t
    · rw [if_pos hy] at h
      exact List.mem_cons_of_mem _ h
    · rw [if_neg hy] at h
      rcases List.mem_cons.mp h with h2 | h2
      · exact h2 ▸ List.mem_cons_self _ _
      · exact List.mem_cons_of_mem _ (ih h2)

/-! ## The freshness invariant of the randomness supply -/

/-- A token minted with the current fresh randomness cannot already be stored
in a participant list whose tokens all used older randomness. -/
theorem fresh_not_mem {ts : List Token} {nn : Nat} {e : String}
    (h : ∀ t ∈ ts, t.nonce < nn) : encrypt_email e nn ∉ ts :=
  fun hm => Nat.lt_irrefl nn (h _ hm)

/-- On an existing activity and a good state, signup always succeeds: the
freshly sealed token is never equal to a stored one, so the duplicate check
never fires, and the token is appended. -/
theorem signup_ok (s : AppState) (n e : String) (a : Activity)
    (hg : goodState s) (hl : s.activities.lookup n = some a) :
    signup_for_activity n e s =
      (Except.ok ("Signed up " ++ e ++ " for " ++ n),
       ⟨updateRoster s.activities n
          { a with participants := a.participants ++ [encrypt_email e s.nextNonce] },
        s.nextNonce + 1⟩) := by
  have hnm : encrypt_email e s.nextNonce ∉ a.participants :=
    fresh_not_mem (hg (n, a) (mem_of_lookup hl))
  simp only [signup_for_activity, hl]
  rw [if_neg hnm]

/-- Signup preserves the freshness invariant. -/
theorem signup_preserves_good (s : AppState) (n e : String) (hg : goodState s) :
    goodState (signup_for_activity n e s).2 := by
  simp only [signup_for_activity]
  cases hl : s.activities.lookup n with
  | none => exact hg
  | some a =>
    simp only []
    split
    · intro p hp t ht
      exact Nat.lt_succ_of_lt (hg p hp t ht)
    · intro p hp t ht
      rcases updateRoster_mem hp with h2 | h2
      · rw [h2] at ht
        rcases List.mem_append.mp ht with h3 | h3
        · exact Nat.lt_succ_of_lt (hg (n, a) (mem_of_lookup hl) t h3)
        · have := List.mem_singleton.mp h3
          rw [this]
          exact Nat.lt_succ_self _
      · exact Nat.lt_succ_of_lt (hg p h2 t ht)

/-- Unregister preserves the freshness invariant. -/
theorem unregister_preserves_good (s : AppState) (n e : String)
    (hg : goodState s) : goodState (unregister_from_activity n e s).2 := by
  simp only [unregister_from_activity]
  cases hl : s.activities.lookup n with
  | none => exact hg
  | some a =>
    simp only []
    split
    · intro p hp t ht
      rcases updateRoster_mem hp with h2 | h2
      · rw [h2] at ht
        exact Nat.lt_succ_of_lt
          (hg (n, a) (mem_of_lookup hl) t (removeFirst_subset ht))
      · exact Nat.lt_succ_of_lt (hg p h2 t ht)
    · intro p hp t ht
      exact Nat.lt_succ_of_lt (hg p hp t ht)

/-- The seeded state satisfies the freshness invariant. -/
theorem initState_good : goodState initState := by
  unfold goodState
  decide

/-! ## Sequences of signups -/

/-- From a good state, signing up any sequence of emails for an existing
activity succeeds at every step, and the participant list grows by exactly the
number of requests: no capacity bound is consulted anywhere. -/
theorem enrollAll_ok (name : String) (emails : List String) :
    ∀ (s : AppState) (a : Activity), goodState s →
      s.activities.lookup name = some a →
      allOk (enrollAll name emails s).1 = true ∧
      ∃ b, ((enrollAll name emails s).2).activities.lookup name = some b ∧
        b.participants.length = a.participants.length + emails.length := by
  induction emails with
  | nil =>
    intro s a hg hl
    exact ⟨rfl, a, hl, rfl⟩
  | cons e rest ih =>
    intro s a hg hl
    have hstep := signup_ok s name e a hg hl
    have hg₁ : goodState (signup_for_activity name e s).2 :=
      signup_preserves_good s name e hg
    rw [hstep] at hg₁
    have hl₁ :
        (updateRoster s.activities name
          { a with
            participants :=
              a.participants ++ [encrypt_email e s.nextNonce] }).lookup name =
          some { a with
            participants := a.participants ++ [encrypt_email e s.nextNonce] } :=
      updateRoster_lookup_self s.activities name _ a hl
    obtain ⟨hOk, b, hb, hlen⟩ :=
      ih ⟨updateRoster s.activities name
            { a with
              participants := a.participants ++ [encrypt_email e s.nextNonce] },
          s.nextNonce + 1⟩
        { a with participants := a.participants ++ [encrypt_email e s.nextNonce] }
        hg₁ hl₁
    simp only [enrollAll, hstep]
    refine ⟨?_, b, hb, ?_⟩
    · simp only [allOk, List.all_cons, isOkB, Bool.true_and]
      exact hOk
    · rw [hlen]
      simp
      omega

/-! ## The claims -/

/-- C1: the claim asserts that two calls of the sealing operation on the same
email under the fixed key yield equal tokens. The cipher is randomized per
call: the two calls draw distinct randomness, so the tokens differ even though
both decrypt to the same email. Evaluated here at the email
"alice@mergington.edu" with the two successive randomness draws 0 and 1. -/
theorem seal_not_deterministic :
    encrypt_email "alice@mergington.edu" 0 ≠ encrypt_email "alice@mergington.edu" 1 ∧
    decrypt_email (encrypt_email "alice@mergington.edu" 0) =
      decrypt_email (encrypt_email "alice@mergington.edu" 1) := by
  constructor
  · decide
  · rfl

/-- C2: the claim asserts that a second signup of the same email for the same
activity fails with the 400 AlreadyEnrolled error. Evaluated on the seeded
state at ("Chess Club", "new@student.edu"): both the first and the second call
succeed, because the duplicate check reseals the email with fresh randomness
and never matches the stored token. -/
theorem double_enroll_both_succeed :
    (signup_for_activity "Chess Club" "new@student.edu" initState).1 =
      Except.ok "Signed up new@student.edu for Chess Club" ∧
    (signup_for_activity "Chess Club" "new@student.edu"
        (signup_for_activity "Chess Club" "new@student.edu" initState).2).1 =
      Except.ok "Signed up new@student.edu for Chess Club" := by
  constructor
  · rfl
  · rfl

/-- C3: the claim asserts that in every reachable state each plaintext email
occurs at most once inside a single participant list. Signing up
"new@student.edu" for "Chess Club" twice from the seeded state leaves two
stored tokens whose plaintext is "new@student.edu" in that one list. -/
theorem duplicate_plaintext_reachable :
    (((signup_for_activity "Chess Club" "new@student.edu"
          (signup_for_activity "Chess Club" "new@student.edu" initState).2).2).activities.lookup
        "Chess Club").map
      (fun a =>
        (a.participants.filter (fun t => t.plain == "new@student.edu")).length) =
      some 2 := by
  rfl

/-- C4: the claim asserts that after enrolling "new@student.edu" into
"Chess Club" the listing shows three participants including the new one, and
that immediately withdrawing that email succeeds and restores the original two
seeded emails. The enrollment and the listing behave as claimed, but the
withdrawal fails with the 400 NotEnrolled error (the reseal never matches the
stored token) and the listing still shows all three participants. -/
theorem enroll_withdraw_scenario_observed :
    (((get_activities
          (signup_for_activity "Chess Club" "new@student.edu" initState).2).1.lookup
        "Chess Club").map (fun a => a.participants) =
      some ["michael@mergington.edu", "daniel@mergington.edu", "new@student.edu"]) ∧
    ((unregister_from_activity "Chess Club" "new@student.edu"
        (signup_for_activity "Chess Club" "new@student.edu" initState).2).1 =
      Except.error ⟨400, "Student is not signed up for this activity"⟩) ∧
    (((get_activities
          (unregister_from_activity "Chess Club" "new@student.edu"
            (signup_for_activity "Chess Club" "new@student.edu" initState).2).2).1.lookup
        "Chess Club").map (fun a => a.participants) =
      some ["michael@mergington.edu", "daniel@mergington.edu", "new@student.edu"]) := by
  refine ⟨rfl, rfl, rfl⟩

/-- C5: decrypting after encrypting recovers the plaintext for every email and
every randomness draw, and consequently the listing of the seeded state
returns, for every seeded activity, exactly the plaintext emails that were
sealed at construction, in order. -/
theorem seeded_roundtrip :
    (∀ (e : String) (n : Nat), decrypt_email (encrypt_email e n) = e) ∧
    (get_activities initState).1 =
      seedEntries.map (fun a =>
        (a.name, ⟨a.description, a.schedule, a.max_participants, a.emails⟩)) := by
  exact ⟨fun _ _ => rfl, by decide⟩

/-- C6: requests against an activity name that is absent from the roster are
rejected by both mutating handlers with the 404 Activity-not-found error, and
the whole state is returned untouched: the existence check runs before any
encryption or mutation. -/
theorem missing_activity_rejected (s : AppState) (n e : String)
    (h : s.activities.lookup n = none) :
    signup_for_activity n e s = (Except.error ⟨404, "Activity not found"⟩, s) ∧
    unregister_from_activity n e s =
      (Except.error ⟨404, "Activity not found"⟩, s) := by
  constructor
  · simp only [signup_for_activity, h]
  · simp only [unregister_from_activity, h]

/-- Witness for C6 at the seeded state and the name "Nonexistent Club". -/
theorem missing_activity_rejected_witness :
    initState.activities.lookup "Nonexistent Club" = none ∧
    signup_for_activity "Nonexistent Club" "e@mergington.edu" initState =
      (Except.error ⟨404, "Activity not found"⟩, initState) ∧
    unregister_from_activity "Nonexistent Club" "e@mergington.edu" initState =
      (Except.error ⟨404, "Activity not found"⟩, initState) := by
  have h : initState.activities.lookup "Nonexistent Club" = none := by decide
  exact ⟨h,
    missing_activity_rejected initState "Nonexistent Club" "e@mergington.edu" h⟩

/-- C7: no capacity check exists: from the seeded state, signing up any
sequence of thirteen distinct emails for "Chess Club" (capacity twelve, two
seeded participants) succeeds at every single step, and the participant list
ends with fifteen entries, three over the advisory capacity. -/
theorem capacity_never_enforced (emails : List String)
    (hlen : emails.length = 13) (_hnodup : emails.Nodup) :
    allOk (enrollAll "Chess Club" emails initState).1 = true ∧
    ∃ b, ((enrollAll "Chess Club" emails initState).2).activities.lookup
        "Chess Club" = some b ∧
      b.participants.length = 15 := by
  obtain ⟨h1, b, h2, h3⟩ :=
    enrollAll_ok "Chess Club" emails initState
      ⟨"Learn strategies and compete in chess tournaments",
       "Fridays, 3:30 PM - 5:00 PM", 12,
       [⟨"michael@mergington.edu", 0⟩, ⟨"daniel@mergington.edu", 1⟩]⟩
      initState_good (by decide)
  refine ⟨h1, b, h2, ?_⟩
  rw [h3, hlen]
  decide

/-- Witness for C7 at a concrete sequence of thirteen distinct emails. -/
theorem capacity_never_enforced_witness :
    thirteenEmails.length = 13 ∧ thirteenEmails.Nodup ∧
    (allOk (enrollAll "Chess Club" thirteenEmails initState).1 = true ∧
     ∃ b, ((enrollAll "Chess Club" thirteenEmails initState).2).activities.lookup
         "Chess Club" = some b ∧
       b.participants.length = 15) :=
  ⟨by decide, by decide,
   capacity_never_enforced thirteenEmails (by decide) (by decide)⟩

/-- C8: whenever one of the two mutating handlers raises an error, the roster
mapping after the call is exactly the roster mapping before it: both error
paths return before any participant list or roster entry is written. -/
theorem error_leaves_roster (s : AppState) (n e : String) :
    (∀ err : HTTPError, (signup_for_activity n e s).1 = Except.error err →
      ((signup_for_activity n e s).2).activities = s.activities) ∧
    (∀ err : HTTPError, (unregister_from_activity n e s).1 = Except.error err →
      ((unregister_from_activity n e s).2).activities = s.activities) := by
  constructor
  · intro err h
    unfold signup_for_activity at h ⊢
    cases hl : s.activities.lookup n with
    | none => rfl
    | some a =>
      rw [hl] at h
      simp only [] at h ⊢
      by_cases hm : encrypt_email e s.nextNonce ∈ a.participants
      · rw [if_pos hm]
      · rw [if_neg hm] at h
        exact absurd h (by simp)
  · intro err h
    unfold unregister_from_activity at h ⊢
    cases hl : s.activities.lookup n with
    | none => rfl
    | some a =>
      rw [hl] at h
      simp only [] at h ⊢
      by_cases hm : encrypt_email e s.nextNonce ∈ a.participants
      · rw [if_pos hm] at h
        exact absurd h (by simp)
      · rw [if_neg hm]

/-- Witness for C8: a 404 signup error at a missing activity and a 400
unregister error at a seeded activity, both leaving the seeded roster
unchanged. -/
theorem error_leaves_roster_witness :
    ((signup_for_activity "Nonexistent Club" "e@mergington.edu" initState).2).activities
      = initState.activities ∧
    ((unregister_from_activity "Chess Club" "ghost@mergington.edu" initState).2).activities
      = initState.activities :=
  ⟨(error_leaves_roster initState "Nonexistent Club" "e@mergington.edu").1
      ⟨404, "Activity not found"⟩ rfl,
   (error_leaves_roster initState "Chess Club" "ghost@mergington.edu").2
      ⟨400, "Student is not signed up for this activity"⟩ rfl⟩

/-- Replacing the record under a present key by one with the same description,
schedule and capacity preserves the frame condition. -/
theorem frame_of_update (s : AppState) (n : String) (a aNew : Activity)
    (nn : Nat) (hl : s.activities.lookup n = some a)
    (hd : aNew.description = a.description)
    (hs : aNew.schedule = a.schedule)
    (hm : aNew.max_participants = a.max_participants) :
    FramePreserved s ⟨updateRoster s.activities n aNew, nn⟩ n := by
  refine ⟨updateRoster_map_fst _ _ _,
          fun m hmn => updateRoster_lookup_ne _ _ _ _ hmn, ?_⟩
  intro b bNew hb hbNew
  have h2 : (updateRoster s.activities n aNew).lookup n = some aNew :=
    updateRoster_lookup_self _ _ _ _ hl
  obtain rfl : b = a := Option.some.inj (hb.symm.trans hl)
  obtain rfl : bNew = aNew := Option.some.inj (hbNew.symm.trans h2)
  exact ⟨hd, hs, hm⟩

/-- C9: a successful signup or unregister on an activity touches only the
participant list of that activity: the set and order of roster keys, every
other record, and the description, schedule and capacity of the touched
record are all unchanged. -/
theorem success_frame (s : AppState) (n e : String) :
    (∀ m, (signup_for_activity n e s).1 = Except.ok m →
      FramePreserved s (signup_for_activity n e s).2 n) ∧
    (∀ m, (unregister_from_activity n e s).1 = Except.ok m →
      FramePreserved s (unregister_from_activity n e s).2 n) := by
  constructor
  · intro m h
    unfold signup_for_activity at h ⊢
    cases hl : s.activities.lookup n with
    | none =>
      rw [hl] at h
      exact absurd h (by simp)
    | some a =>
      rw [hl] at h
      simp only [] at h ⊢
      by_cases hmem : encrypt_email e s.nextNonce ∈ a.participants
      · rw [if_pos hmem] at h
        exact absurd h (by simp)
      · rw [if_neg hmem]
        exact frame_of_update s n a _ _ hl rfl rfl rfl
  · intro m h
    unfold unregister_from_activity at h ⊢
    cases hl : s.activities.lookup n with
    | none =>
      rw [hl] at h
      exact absurd h (by simp)
    | some a =>
      rw [hl] at h
      simp only [] at h ⊢
      by_cases hmem : encrypt_email e s.nextNonce ∈ a.participants
      · rw [if_pos hmem]
        exact frame_of_update s n a _ _ hl rfl rfl rfl
      · rw [if_neg hmem] at h
        exact absurd h (by simp)

/-- Witness for C9: a successful signup from the seeded state and a successful
unregister from the crafted state, each preserving the frame condition. -/
theorem success_frame_witness :
    FramePreserved initState
      (signup_for_activity "Chess Club" "new@student.edu" initState).2
      "Chess Club" ∧
    FramePreserved shrunkState
      (unregister_from_activity "Chess Club" "gone@student.edu" shrunkState).2
      "Chess Club" :=
  ⟨(success_frame initState "Chess Club" "new@student.edu").1
      "Signed up new@student.edu for Chess Club" rfl,
   (success_frame shrunkState "Chess Club" "gone@student.edu").2
      "Unregistered gone@student.edu from Chess Club" rfl⟩

/-- C10: the listing handler is read-only: for every state it returns the
whole program state, roster and randomness supply alike, exactly as it was
(it serves decrypted copies of the records). -/
theorem list_read_only (s : AppState) : (get_activities s).2 = s :=
  rfl
